import Mathlib

/-! SimpleHttpServer (`src/http_server.cpp`)

A shallow embedding of the echo HTTP server and a verification of its
natural-language specification.

* A `std::string` is a sequence of `char`; it is modelled as a `List Char`,
  one list element per `char` of the C++ string, so `List.length` is the byte
  length `std::string::length()` returns.
* The stream extraction used by `extractURLFromRequest` is modelled with an
  explicit stream state (`IStream`).
* `handle_client` and `start` talk to the operating system; the results of the
  system calls are inputs of the model and the calls made are recorded in a
  trace.
-/

namespace SimpleHttpServer

/-! ## Strings and streams -/

/-- The characters of a string literal, as a `std::string`. -/
def lit (s : String) : List Char := s.toList

/-- Whitespace as classified by `std::isspace` in the "C" locale, the
classification `operator>>` uses to delimit tokens: space, `\t`, `\n`, `\v`,
`\f`, `\r`. -/
def isspace (c : Char) : Bool :=
  c == ' ' || c == '\t' || c == '\n' || c == '\x0b' || c == '\x0c' || c == '\r'

/-- The call `std::getline(iss, firstLine)` on a stream freshly opened on `request`:
the characters before the first `'\n'` (all of them when there is none; the
empty string when `request` is empty). -/
def getline (request : List Char) : List Char :=
  request.takeWhile (fun c => c != '\n')

/-- State of a `std::istringstream`: the characters not yet extracted and whether
`good()` holds (neither `eofbit` nor `failbit` is set). -/
structure IStream where
  buf : List Char
  good : Bool
deriving DecidableEq, Repr

/-- A string stream freshly opened on `s`. -/
def IStream.open (s : List Char) : IStream := { buf := s, good := true }

/-- The extraction `stream >> str` for a `std::string` whose current value is
`cur`. The sentry fails when the stream is not good, or when skipping leading
whitespace reaches the end of the stream; then `failbit` is set and the string is
left as it was. Otherwise the string is replaced by the maximal run of
non-whitespace characters, and `eofbit` is set when that run ends the stream. -/
def IStream.extract (s : IStream) (cur : List Char) : IStream × List Char :=
  if s.good then
    match s.buf.dropWhile isspace with
    | [] => ({ buf := [], good := false }, cur)
    | c :: cs =>
      let tok := (c :: cs).takeWhile (fun x => !isspace x)
      let rest := (c :: cs).dropWhile (fun x => !isspace x)
      ({ buf := rest, good := !rest.isEmpty }, tok)
  else
    ({ buf := s.buf, good := false }, cur)

/-- The three tokens `method`, `url`, `protocol` that `extractURLFromRequest`
reads from the first line of the request (lines 153-159). Each string starts
empty. -/
def parseFirstLine (request : List Char) : List Char × List Char × List Char :=
  let firstLine := getline request
  let lineStream := IStream.open firstLine
  let r1 := lineStream.extract []
  let r2 := r1.1.extract []
  let r3 := r2.1.extract []
  (r1.2, r2.2, r3.2)

/-- The function `SimpleHttpServer::extractURLFromRequest` (lines 151-162):
`method + url`. -/
def extractURLFromRequest (request : List Char) : List Char :=
  let p := parseFirstLine request
  p.1 ++ p.2.1

/-- The call `std::to_string` on a `size_t`: the decimal digits. -/
def to_string (n : Nat) : List Char := Nat.toDigits 10 n

/-- The function `SimpleHttpServer::generateHTTPResponse` (lines 164-183), one
`+=` per line of the source. -/
def generateHTTPResponse (requestURL : List Char) : List Char :=
  let response : List Char := []
  let response := response ++ lit "HTTP/1.1 200 OK\r\n"
  let response := response ++ lit "Content-Type: text/plain\r\n"
  let response := response ++ ((lit "Content-Length: " ++ to_string requestURL.length) ++ lit "\r\n")
  let response := response ++ lit "Connection: close\r\n"
  let response := response ++ lit "\r\n"
  let response := response ++ requestURL
  response

/-- The whitespace-separated tokens of a line, as the specification speaks of
them: the line is split at every whitespace character and the empty pieces are
dropped. -/
def wsTokens (line : List Char) : List (List Char) :=
  (line.splitOnP isspace).filter (fun t => !t.isEmpty)

/-- The header terminator `"\r\n\r\n"`. -/
def terminator : List Char := lit "\r\n\r\n"

/-- The call `haystack.find(needle)` of `std::string`: the least position at which
`needle` occurs, `none` standing for `npos`. -/
def find (needle : List Char) : List Char → Option Nat
  | [] => if needle.isPrefixOf [] then some 0 else none
  | c :: cs =>
    if needle.isPrefixOf (c :: cs) then some 0
    else (find needle cs).map (fun i => i + 1)

/-! ## The connection handler -/

/-- The constant `BUFFER_SIZE` (line 35). -/
def BUFFER_SIZE : Nat := 2048

/-- Outcome of one call `recv(client_socket, buffer, BUFFER_SIZE, 0)`: the value
returned and the contents of `buffer` after the call. -/
structure RecvResult where
  ret : Int
  buffer : List Char
deriving DecidableEq, Repr

/-- A successful read that delivers the bytes `chunk`. -/
def recvChunk (chunk : List Char) : RecvResult :=
  { ret := (chunk.length : Int), buffer := chunk }

/-- The calls `handle_client` makes on its connection, in order. -/
inductive ClientCall where
  | recv (client_socket : Int) (len : Nat) (ret : Int)
  | sleep_ms (ms : Int)
  | send (client_socket : Int) (rsp : List Char)
  | close (client_socket : Int)
deriving DecidableEq, Repr

/-- The read loop of `handle_client` (lines 132-143), started with `req` already
accumulated. The list holds the outcomes of the successive `recv` calls; when it
is used up the next `recv` never returns (`none`). The result is `rsp` and the
`recv` calls made. -/
def recvLoop (client_socket : Int) :
    List RecvResult → List Char → Option (List Char × List ClientCall)
  | [], _ => none
  | r :: rs, req =>
    if r.ret > 0 then
      let req := req ++ r.buffer.take r.ret.toNat
      if (find terminator req).isSome then
        some (generateHTTPResponse (extractURLFromRequest req),
          [ClientCall.recv client_socket BUFFER_SIZE r.ret])
      else
        (recvLoop client_socket rs req).map
          (fun p => (p.1, ClientCall.recv client_socket BUFFER_SIZE r.ret :: p.2))
    else
      some ([], [ClientCall.recv client_socket BUFFER_SIZE r.ret])

/-- The delay step of `handle_client` (lines 145-146). The atomic `delay_time_` is
loaded twice, once for the test and once for the duration. -/
def delayStep (delayTest delaySleep : Int) : List ClientCall :=
  if delayTest != 0 then [ClientCall.sleep_ms delaySleep] else []

/-- The function `SimpleHttpServer::handle_client` (lines 126-149): the trace of
the calls it makes, or `none` when a `recv` never returns. -/
def handle_client (client_socket : Int) (delayTest delaySleep : Int)
    (recvs : List RecvResult) : Option (List ClientCall) :=
  (recvLoop client_socket recvs []).map (fun p =>
    p.2 ++ delayStep delayTest delaySleep ++
      [ClientCall.send client_socket p.1, ClientCall.close client_socket])

/-! ## The acceptor -/

/-- The fields of `SimpleHttpServer` that change after construction. -/
structure Server where
  is_running_ : Bool
  ec_ : Int
  delay_time_ : Int
deriving DecidableEq, Repr

/-- The constructor (line 16). -/
def Server.new : Server := { is_running_ := false, ec_ := 0, delay_time_ := 0 }

/-- The method `stop_server` (line 23). -/
def Server.stop_server (s : Server) : Server := { s with is_running_ := false }

/-- The method `is_running` (line 24). -/
def Server.is_running (s : Server) : Bool := s.is_running_

/-- The method `get_error_code` (line 25). -/
def Server.get_error_code (s : Server) : Int := s.ec_

/-- The method `set_delay_ms` (line 26). -/
def Server.set_delay_ms (s : Server) (time : Int) : Server := { s with delay_time_ := time }

/-- The values of the `errno` macros `start` compares with; they come from the
system headers. -/
structure ErrnoValues where
  EWOULDBLOCK : Int
  EAGAIN : Int
deriving DecidableEq, Repr

/-- The values returned by the system calls of the setup part of `start`. -/
structure SetupResults where
  socket : Int
  setsockopt : Int
  bind : Int
  fcntl_getfl : Int
  fcntl_setfl : Int
  listen : Int
deriving DecidableEq, Repr

/-- What happens around one test of `is_running_` in the accept loop: either
another thread has called `stop_server()` since the previous test, or the loop
calls `accept`, which returns `ret` and leaves `errno`; `handlerReturns` tells
whether the `handle_client` thread spawned for an accepted connection ever
returns. -/
inductive LoopInput where
  | stop_server
  | accept (ret errno : Int) (handlerReturns : Bool)
deriving DecidableEq, Repr

/-- The steps of `start`, in order: the system calls with their results, the
store `is_running_ = true`, and the threads spawned and joined. -/
inductive SysCall where
  | socket (ret : Int)
  | setsockopt (ret : Int)
  | bind (ret : Int)
  | fcntl_getfl (ret : Int)
  | fcntl_setfl (ret : Int)
  | listen (backlog : Int) (ret : Int)
  | set_running
  | accept (ret errno : Int)
  | sleep_5ns
  | spawn (client_socket : Int)
  | join (client_socket : Int)
  | close (fd : Int)
deriving DecidableEq, Repr

/-- A spawned `handle_client` thread: its socket and whether it ever returns. -/
structure ClientThread where
  client_socket : Int
  returns : Bool
deriving DecidableEq, Repr

/-- Result of the accept loop: the server fields, the steps made, the threads
spawned, and whether the loop has been left (`false`: the inputs are used up
with the loop still running). -/
structure LoopResult where
  state : Server
  trace : List SysCall
  threads : List ClientThread
  exited : Bool
deriving DecidableEq, Repr

/-- The accept loop of `start` (lines 94-116). -/
def acceptLoop (E : ErrnoValues) :
    List LoopInput → Server → List ClientThread → LoopResult
  | [], s, threads =>
    { state := s, trace := [], threads := threads, exited := !s.is_running_ }
  | i :: rest, s, threads =>
    if s.is_running_ then
      match i with
      | LoopInput.stop_server => acceptLoop E rest s.stop_server threads
      | LoopInput.accept client_socket errno handlerReturns =>
        if client_socket == -1 then
          if errno == E.EWOULDBLOCK || errno == E.EAGAIN then
            let r := acceptLoop E rest s threads
            { r with trace := SysCall.accept client_socket errno :: SysCall.sleep_5ns :: r.trace }
          else
            { state := s, trace := [SysCall.accept client_socket errno],
              threads := threads, exited := true }
        else
          let r := acceptLoop E rest s
            (threads ++ [{ client_socket := client_socket, returns := handlerReturns }])
          { r with trace :=
              SysCall.accept client_socket errno :: SysCall.spawn client_socket :: r.trace }
    else
      { state := s, trace := [], threads := threads, exited := true }

/-- The loop `for (auto& thread : threads) thread.join();` (lines 119-120): the
joins that return, and whether all of them do. -/
def joinAll : List ClientThread → List SysCall × Bool
  | [] => ([], true)
  | t :: ts =>
    if t.returns then
      let r := joinAll ts
      (SysCall.join t.client_socket :: r.1, r.2)
    else ([], false)

/-- A run of `start`: the server fields and the steps made so far, and whether
`start` has returned. -/
structure Run where
  state : Server
  trace : List SysCall
  returned : Bool
deriving DecidableEq, Repr

/-- The function `SimpleHttpServer::start` (lines 39-124). -/
def start (E : ErrnoValues) (env : SetupResults) (inputs : List LoopInput) (s : Server) : Run :=
  let server_socket := env.socket
  if server_socket == -1 then
    { state := { s with ec_ := 1 }, trace := [SysCall.socket server_socket], returned := true }
  else if env.setsockopt == -1 then
    { state := { s with ec_ := 1 },
      trace := [SysCall.socket server_socket, SysCall.setsockopt env.setsockopt],
      returned := true }
  else if env.bind == -1 then
    { state := { s with ec_ := 1 },
      trace := [SysCall.socket server_socket, SysCall.setsockopt env.setsockopt,
        SysCall.bind env.bind],
      returned := true }
  else if env.fcntl_setfl == -1 then
    { state := s,
      trace := [SysCall.socket server_socket, SysCall.setsockopt env.setsockopt,
        SysCall.bind env.bind, SysCall.fcntl_getfl env.fcntl_getfl,
        SysCall.fcntl_setfl env.fcntl_setfl],
      returned := true }
  else if env.listen == -1 then
    { state := { s with ec_ := 1 },
      trace := [SysCall.socket server_socket, SysCall.setsockopt env.setsockopt,
        SysCall.bind env.bind, SysCall.fcntl_getfl env.fcntl_getfl,
        SysCall.fcntl_setfl env.fcntl_setfl, SysCall.listen 500 env.listen],
      returned := true }
  else
    let setup := [SysCall.socket server_socket, SysCall.setsockopt env.setsockopt,
        SysCall.bind env.bind, SysCall.fcntl_getfl env.fcntl_getfl,
        SysCall.fcntl_setfl env.fcntl_setfl, SysCall.listen 500 env.listen,
        SysCall.set_running]
    let loop := acceptLoop E inputs { s with is_running_ := true } []
    if loop.exited then
      let joined := joinAll loop.threads
      if joined.2 then
        { state := { loop.state with ec_ := 1 },
          trace := setup ++ loop.trace ++ joined.1 ++ [SysCall.close server_socket],
          returned := true }
      else
        { state := loop.state, trace := setup ++ loop.trace ++ joined.1, returned := false }
    else
      { state := loop.state, trace := setup ++ loop.trace, returned := false }

/-- The steps of the setup part of `start`, up to the store `is_running_ = true`. -/
def SysCall.isSetupStep : SysCall → Bool
  | SysCall.socket _ => true
  | SysCall.setsockopt _ => true
  | SysCall.bind _ => true
  | SysCall.fcntl_getfl _ => true
  | SysCall.fcntl_setfl _ => true
  | SysCall.listen _ _ => true
  | SysCall.set_running => true
  | _ => false

/-- Errno values of Linux, where `EWOULDBLOCK` and `EAGAIN` are both 11. -/
def linuxErrno : ErrnoValues := { EWOULDBLOCK := 11, EAGAIN := 11 }

/-- Setup results in which every call succeeds: `socket` returns descriptor 3. -/
def setupOk : SetupResults :=
  { socket := 3, setsockopt := 0, bind := 0, fcntl_getfl := 2, fcntl_setfl := 0, listen := 0 }


/-! ## Lemmas on strings -/

theorem wsTokens_nil : wsTokens [] = [] := by
  simp [wsTokens]

theorem wsTokens_cons_space (x : Char) (xs : List Char) (hx : isspace x = true) :
    wsTokens (x :: xs) = wsTokens xs := by
  simp [wsTokens, hx]

theorem wsTokens_dropWhile (l : List Char) : wsTokens (l.dropWhile isspace) = wsTokens l := by
  induction l with
  | nil => rfl
  | cons x xs ih =>
    by_cases hx : isspace x = true
    · rw [List.dropWhile_cons_of_pos hx, ih, wsTokens_cons_space x xs hx]
    · rw [List.dropWhile_cons_of_neg hx]

/-- The tokens of a line that starts with a non-whitespace character: the
maximal run of non-whitespace characters, then the tokens of what follows. -/
theorem wsTokens_cons_nonspace (c : Char) (cs : List Char) (hc : isspace c = false) :
    wsTokens (c :: cs) =
      (c :: cs).takeWhile (fun x => !isspace x) ::
        wsTokens ((c :: cs).dropWhile (fun x => !isspace x)) := by
  have hsplit := List.takeWhile_append_dropWhile (fun x => !isspace x) (c :: cs)
  have htake : ∀ x ∈ (c :: cs).takeWhile (fun x => !isspace x), ¬ (isspace x = true) := by
    intro x hx
    have := List.mem_takeWhile_imp hx
    simpa using this
  have hne : (c :: cs).takeWhile (fun x => !isspace x) ≠ [] := by
    simp [List.takeWhile_cons, hc]
  cases hd : (c :: cs).dropWhile (fun x => !isspace x) with
  | nil =>
    rw [hd, List.append_nil] at hsplit
    rw [hsplit] at htake ⊢
    rw [wsTokens_nil, wsTokens, List.splitOnP_eq_single isspace _ htake]
    simp
  | cons sep rest =>
    have hsep : isspace sep = true := by
      have := List.head_dropWhile_not (fun x => !isspace x) (c :: cs) (by rw [hd]; simp)
      simpa [hd] using this
    rw [wsTokens_cons_space sep rest hsep]
    rw [hd] at hsplit
    conv_lhs => rw [← hsplit]
    rw [wsTokens, List.splitOnP_first isspace _ htake sep hsep rest]
    rw [List.filter_cons_of_pos (by simpa using hne)]
    rfl

/-- What one extraction does, in terms of the tokens of the stream's buffer:
it reads the first token when there is one and leaves the string empty
otherwise, and the remaining tokens stay in the stream. -/
theorem extract_spec (s : IStream) (h : s.good = false → wsTokens s.buf = []) :
    (s.extract []).2 = (wsTokens s.buf).headD [] ∧
      wsTokens (s.extract []).1.buf = (wsTokens s.buf).tail ∧
      ((s.extract []).1.good = false → wsTokens (s.extract []).1.buf = []) := by
  cases hg : s.good with
  | false =>
    have h0 := h hg
    simp [IStream.extract, hg, h0]
  | true =>
    cases hd : s.buf.dropWhile isspace with
    | nil =>
      have h0 : wsTokens s.buf = [] := by
        rw [← wsTokens_dropWhile, hd, wsTokens_nil]
      simp [IStream.extract, hg, hd, h0, wsTokens_nil]
    | cons c cs =>
      have hc : isspace c = false := by
        have := List.head_dropWhile_not isspace s.buf (by rw [hd]; simp)
        simpa [hd] using this
      have h1 : wsTokens s.buf = (c :: cs).takeWhile (fun x => !isspace x) ::
          wsTokens ((c :: cs).dropWhile (fun x => !isspace x)) := by
        rw [← wsTokens_dropWhile, hd, wsTokens_cons_nonspace c cs hc]
      simp only [IStream.extract, hg, hd, h1, if_true, List.headD_cons, List.tail_cons,
        true_and]
      intro hempty
      have : (c :: cs).dropWhile (fun x => !isspace x) = [] := by
        simpa using hempty
      rw [this, wsTokens_nil]

/-- The three strings read from the first line are its first three
whitespace-separated tokens, each empty when the line has no such token. -/
theorem parseFirstLine_eq_tokens (request : List Char) :
    parseFirstLine request =
      ((wsTokens (getline request)).headD [],
       (wsTokens (getline request)).tail.headD [],
       (wsTokens (getline request)).tail.tail.headD []) := by
  have e1 := extract_spec (IStream.open (getline request)) (by simp [IStream.open])
  have e2 := extract_spec ((IStream.open (getline request)).extract []).1 e1.2.2
  have e3 := extract_spec
    (((IStream.open (getline request)).extract []).1.extract []).1 e2.2.2
  simp only [parseFirstLine]
  rw [e1.1, e2.1, e3.1, e2.2.1, e1.2.1]
  rfl

theorem getline_of_no_newline (l : List Char) (h : '\n' ∉ l) : getline l = l := by
  rw [getline, List.takeWhile_eq_self_iff]
  intro x hx
  have : x ≠ '\n' := fun e => h (e ▸ hx)
  simpa using this

theorem getline_append_newline (l r : List Char) (h : '\n' ∉ l) :
    getline (l ++ '\n' :: r) = l := by
  have hl : ∀ x ∈ l, (fun c => c != '\n') x = true := by
    intro x hx
    have : x ≠ '\n' := fun e => h (e ▸ hx)
    simpa using this
  rw [getline, List.takeWhile_append_of_pos hl]
  simp

/-- Once a newline has been received, the first line is not changed by later bytes. -/
theorem getline_append_of_mem (p q : List Char) (h : '\n' ∈ p) :
    getline (p ++ q) = getline p := by
  induction p with
  | nil => simp at h
  | cons x xs ih =>
    by_cases hx : x = '\n'
    · subst hx
      simp [getline]
    · have hmem : '\n' ∈ xs := by
        rcases List.mem_cons.1 h with h1 | h1
        · exact absurd h1.symm hx
        · exact h1
      have := ih hmem
      simp only [getline] at this ⊢
      simp [List.takeWhile_cons, hx, this]

theorem find_isSome_iff (needle hay : List Char) :
    (find needle hay).isSome = true ↔ needle <:+: hay := by
  induction hay with
  | nil =>
    cases needle <;> simp [find, List.isPrefixOf]
  | cons c cs ih =>
    rw [List.infix_cons_iff, ← ih, ← List.isPrefixOf_iff_prefix]
    by_cases hp : needle.isPrefixOf (c :: cs) = true
    · simp [find, hp]
    · simp [find, hp]

/-- A non-empty run of non-whitespace characters followed by a whitespace
character is the first token of the line. -/
theorem wsTokens_token_space (t rest : List Char) (sep : Char) (hne : t ≠ [])
    (ht : ∀ c ∈ t, isspace c = false) (hsep : isspace sep = true) :
    wsTokens (t ++ sep :: rest) = t :: wsTokens rest := by
  have ht2 : ∀ x ∈ t, ¬ (isspace x = true) := by
    intro x hx
    simp [ht x hx]
  rw [wsTokens, List.splitOnP_first isspace _ ht2 sep hsep rest]
  rw [List.filter_cons_of_pos (by simpa using hne)]
  rfl

theorem extractURLFromRequest_eq_tokens (request : List Char) :
    extractURLFromRequest request =
      (wsTokens (getline request)).headD [] ++ (wsTokens (getline request)).tail.headD [] := by
  simp only [extractURLFromRequest, parseFirstLine_eq_tokens]

/-- The result only depends on the first line. -/
theorem extractURLFromRequest_congr (a b : List Char) (h : getline a = getline b) :
    extractURLFromRequest a = extractURLFromRequest b := by
  rw [extractURLFromRequest_eq_tokens, extractURLFromRequest_eq_tokens, h]

theorem terminator_has_newline (p : List Char) (h : terminator <:+: p) :
    '\n' ∈ p :=
  List.IsInfix.mem (by decide) h

theorem generateHTTPResponse_eq (body : List Char) :
    generateHTTPResponse body =
      lit "HTTP/1.1 200 OK\r\nContent-Type: text/plain\r\nContent-Length: " ++
        Nat.toDigits 10 body.length ++ lit "\r\nConnection: close\r\n\r\n" ++ body := by
  simp only [generateHTTPResponse, to_string, List.nil_append, List.append_assoc]
  rfl


/-! ## The response format and the request line -/

/-- C1: for every non-empty METHOD and PATH without whitespace, the request
`METHOD PATH HTTP/1.1\r\n\r\n` is answered with the body `METHOD ++ PATH` (no
separator) and a `Content-Length` that is the decimal length of that body; the
request `GET /foo HTTP/1.1\r\n\r\n` gets the body `GET/foo`. -/
theorem echo_method_path (method path : List Char)
    (hm : method ≠ []) (hp : path ≠ [])
    (hmw : ∀ c ∈ method, isspace c = false) (hpw : ∀ c ∈ path, isspace c = false) :
    extractURLFromRequest (method ++ lit " " ++ path ++ lit " HTTP/1.1\r\n\r\n") = method ++ path ∧
    generateHTTPResponse
        (extractURLFromRequest (method ++ lit " " ++ path ++ lit " HTTP/1.1\r\n\r\n")) =
      lit "HTTP/1.1 200 OK\r\nContent-Type: text/plain\r\nContent-Length: " ++
        Nat.toDigits 10 (method ++ path).length ++ lit "\r\nConnection: close\r\n\r\n" ++
        (method ++ path) ∧
    generateHTTPResponse (extractURLFromRequest (lit "GET /foo HTTP/1.1\r\n\r\n")) =
      lit "HTTP/1.1 200 OK\r\nContent-Type: text/plain\r\nContent-Length: 7\r\nConnection: close\r\n\r\nGET/foo" := by
  have hreq : method ++ lit " " ++ path ++ lit " HTTP/1.1\r\n\r\n" =
      (method ++ ' ' :: (path ++ ' ' :: lit "HTTP/1.1\r")) ++ '\n' :: lit "\r\n" := by
    have e1 : lit " " = [' '] := rfl
    have e2 : lit " HTTP/1.1\r\n\r\n" = ' ' :: (lit "HTTP/1.1\r" ++ '\n' :: lit "\r\n") := rfl
    rw [e1, e2]
    simp
  have hnl : '\n' ∉ method ++ ' ' :: (path ++ ' ' :: lit "HTTP/1.1\r") := by
    intro hmem
    simp only [List.mem_append, List.mem_cons] at hmem
    rcases hmem with h | h | h | h | h
    · exact absurd (hmw _ h) (by decide)
    · exact absurd h (by decide)
    · exact absurd (hpw _ h) (by decide)
    · exact absurd h (by decide)
    · revert h; decide
  have hbody : extractURLFromRequest (method ++ lit " " ++ path ++ lit " HTTP/1.1\r\n\r\n") =
      method ++ path := by
    rw [extractURLFromRequest_eq_tokens, hreq, getline_append_newline _ _ hnl,
      wsTokens_token_space method _ ' ' hm hmw (by decide),
      wsTokens_token_space path _ ' ' hp hpw (by decide)]
    rfl
  refine ⟨hbody, ?_, by decide⟩
  rw [hbody, generateHTTPResponse_eq]

/-- Witness of `echo_method_path` at `PUT /a/b`. -/
theorem echo_method_path_witness :
    extractURLFromRequest (lit "PUT" ++ lit " " ++ lit "/a/b" ++ lit " HTTP/1.1\r\n\r\n") =
      lit "PUT" ++ lit "/a/b" :=
  (echo_method_path (lit "PUT") (lit "/a/b") (by decide) (by decide) (by decide) (by decide)).1

/-- C2: for every body, `generateHTTPResponse body` is exactly the status line, the
three headers with the decimal length of the body as `Content-Length`, the blank
line and the body, with nothing before, between or after; so it is for the empty
body and for a body that contains `\r\n\r\n`. -/
theorem generateHTTPResponse_exact (body : List Char) :
    generateHTTPResponse body =
      lit "HTTP/1.1 200 OK\r\nContent-Type: text/plain\r\nContent-Length: " ++
        Nat.toDigits 10 body.length ++ lit "\r\nConnection: close\r\n\r\n" ++ body ∧
    generateHTTPResponse [] =
      lit "HTTP/1.1 200 OK\r\nContent-Type: text/plain\r\nContent-Length: 0\r\nConnection: close\r\n\r\n" ∧
    generateHTTPResponse (lit "a\r\n\r\nb") =
      lit "HTTP/1.1 200 OK\r\nContent-Type: text/plain\r\nContent-Length: 6\r\nConnection: close\r\n\r\na\r\n\r\nb" :=
  ⟨generateHTTPResponse_eq body, by decide, by decide⟩

/-- C3: the method and target come from the first line only: what follows the
first `'\n'` does not change the result of `extractURLFromRequest`; the request
`POST / HTTP/1.1\r\nHost: x\r\n\r\n` gives `POST/`. -/
theorem extract_first_line_only (l r : List Char) (hl : '\n' ∉ l) :
    extractURLFromRequest (l ++ lit "\n" ++ r) = extractURLFromRequest l ∧
    extractURLFromRequest (lit "POST / HTTP/1.1\r\nHost: x\r\n\r\n") = lit "POST/" := by
  refine ⟨?_, by decide⟩
  apply extractURLFromRequest_congr
  have e : l ++ lit "\n" ++ r = l ++ '\n' :: r := by
    have e1 : lit "\n" = ['\n'] := rfl
    rw [e1]
    simp
  rw [e, getline_append_newline l r hl, getline_of_no_newline l hl]

/-- Witness of `extract_first_line_only`: the headers after `GET /x HTTP/1.1\r` are
ignored. -/
theorem extract_first_line_only_witness :
    extractURLFromRequest (lit "GET /x HTTP/1.1\r" ++ lit "\n" ++ lit "Host: a b\r\n\r\n") =
      extractURLFromRequest (lit "GET /x HTTP/1.1\r") :=
  (extract_first_line_only (lit "GET /x HTTP/1.1\r") (lit "Host: a b\r\n\r\n") (by decide)).1

/-- C5, as stated, fails: the first line of `GET\r\n\r\n` has one token, and the
method read is `GET`, not the empty string; the result is `GET`. -/
theorem one_token_line_not_empty :
    (wsTokens (getline (lit "GET\r\n\r\n"))).length < 2 ∧
    (parseFirstLine (lit "GET\r\n\r\n")).1 = lit "GET" ∧
    extractURLFromRequest (lit "GET\r\n\r\n") = lit "GET" ∧
    extractURLFromRequest (lit "GET\r\n\r\n") ≠ [] := by
  decide

/-- C5, amended: when the first line has fewer than two whitespace-separated
tokens, the target read is empty and the method read is the only token of the
line, or empty when the line has no token; the result is that token, and it is
the empty string when the line has no token. -/
theorem short_first_line (request : List Char)
    (h : (wsTokens (getline request)).length < 2) :
    (parseFirstLine request).1 = (wsTokens (getline request)).headD [] ∧
    (parseFirstLine request).2.1 = [] ∧
    extractURLFromRequest request = (wsTokens (getline request)).headD [] ∧
    (wsTokens (getline request) = [] → extractURLFromRequest request = []) := by
  have hurl : (wsTokens (getline request)).tail.headD [] = [] := by
    cases ht : wsTokens (getline request) with
    | nil => rfl
    | cons a t =>
      cases t with
      | nil => rfl
      | cons b t2 =>
        rw [ht] at h
        simp only [List.length_cons] at h
        omega
  rw [extractURLFromRequest_eq_tokens, parseFirstLine_eq_tokens, hurl]
  refine ⟨rfl, rfl, by simp, ?_⟩
  intro h0
  rw [h0]
  rfl

/-- Witness of `short_first_line` at an empty first line. -/
theorem short_first_line_witness : extractURLFromRequest (lit "\n\r\n\r\n") = [] :=
  (short_first_line (lit "\n\r\n\r\n") (by decide)).2.2.2 (by decide)


/-! ## The connection handler -/

theorem recvChunk_take (c : List Char) :
    (recvChunk c).buffer.take (recvChunk c).ret.toNat = c := by
  simp [recvChunk]

theorem recvChunk_pos (c : List Char) (h : 0 < c.length) : (recvChunk c).ret > 0 := by
  simp only [recvChunk]
  exact_mod_cast h

/-- One turn of the read loop on a chunk that does not complete the terminator. -/
theorem recvLoop_cons_continue (fd : Int) (c : List Char) (rs : List RecvResult)
    (req : List Char) (hc : 0 < c.length) (hno : ¬ terminator <:+: req ++ c) :
    recvLoop fd (recvChunk c :: rs) req =
      (recvLoop fd rs (req ++ c)).map
        (fun p => (p.1, ClientCall.recv fd BUFFER_SIZE (c.length : Int) :: p.2)) := by
  have hf : ¬ ((find terminator (req ++ c)).isSome = true) := by
    rw [find_isSome_iff]
    exact hno
  rw [recvLoop, if_pos (recvChunk_pos c hc), recvChunk_take]
  simp only [hf]
  rfl

/-- One turn of the read loop on the chunk that completes the terminator. -/
theorem recvLoop_cons_stop (fd : Int) (c : List Char) (rs : List RecvResult)
    (req : List Char) (hc : 0 < c.length) (hyes : terminator <:+: req ++ c) :
    recvLoop fd (recvChunk c :: rs) req =
      some (generateHTTPResponse (extractURLFromRequest (req ++ c)),
        [ClientCall.recv fd BUFFER_SIZE (c.length : Int)]) := by
  have hf : (find terminator (req ++ c)).isSome = true := by
    rw [find_isSome_iff]
    exact hyes
  rw [recvLoop, if_pos (recvChunk_pos c hc), recvChunk_take]
  simp only [hf]
  rfl

/-- The read loop on chunks that never complete the terminator, ended by a
zero or negative result: `rsp` stays empty. -/
theorem recvLoop_no_terminator (fd : Int) (chunks : List (List Char)) (req : List Char)
    (r : RecvResult) (rest : List RecvResult)
    (hlen : ∀ c ∈ chunks, 0 < c.length)
    (hno : ¬ terminator <:+: req ++ chunks.flatten) (hr : r.ret ≤ 0) :
    recvLoop fd (chunks.map recvChunk ++ r :: rest) req =
      some ([], chunks.map (fun c => ClientCall.recv fd BUFFER_SIZE (c.length : Int)) ++
        [ClientCall.recv fd BUFFER_SIZE r.ret]) := by
  induction chunks generalizing req with
  | nil =>
    have : ¬ (r.ret > 0) := by omega
    simp [recvLoop, this]
  | cons c cs ih =>
    have hc : 0 < c.length := hlen c (List.mem_cons_self c cs)
    have hno1 : ¬ terminator <:+: req ++ c := by
      intro hin
      apply hno
      have hpre : req ++ c <+: req ++ (c :: cs).flatten := by
        rw [List.flatten_cons, ← List.append_assoc]
        exact List.prefix_append _ _
      exact hin.trans hpre.isInfix
    have hno2 : ¬ terminator <:+: (req ++ c) ++ cs.flatten := by
      rw [List.append_assoc, ← List.flatten_cons]
      exact hno
    rw [List.map_cons, List.cons_append, recvLoop_cons_continue fd c _ req hc hno1,
      ih (req ++ c) (fun x hx => hlen x (List.mem_cons_of_mem c hx)) hno2]
    rfl

/-- The read loop on chunks whose concatenation contains the terminator: it stops
after the first chunk that completes it. -/
theorem recvLoop_terminator (fd : Int) (chunks : List (List Char)) (req : List Char)
    (rest : List RecvResult)
    (hlen : ∀ c ∈ chunks, 0 < c.length)
    (hreq : ¬ terminator <:+: req) (hyes : terminator <:+: req ++ chunks.flatten) :
    ∃ k, k < chunks.length ∧
      (∀ j, j ≤ k → ¬ terminator <:+: req ++ (chunks.take j).flatten) ∧
      terminator <:+: req ++ (chunks.take (k + 1)).flatten ∧
      recvLoop fd (chunks.map recvChunk ++ rest) req =
        some (generateHTTPResponse (extractURLFromRequest (req ++ (chunks.take (k + 1)).flatten)),
          (chunks.take (k + 1)).map (fun c => ClientCall.recv fd BUFFER_SIZE (c.length : Int))) := by
  induction chunks generalizing req with
  | nil =>
    simp only [List.flatten_nil, List.append_nil] at hyes
    exact absurd hyes hreq
  | cons c cs ih =>
    have hc : 0 < c.length := hlen c (List.mem_cons_self c cs)
    by_cases h1 : terminator <:+: req ++ c
    · refine ⟨0, by simp, ?_, ?_, ?_⟩
      · intro j hj
        have : j = 0 := by omega
        subst this
        simpa using hreq
      · simpa using h1
      · rw [List.map_cons, List.cons_append, recvLoop_cons_stop fd c _ req hc h1]
        simp
    · have hyes2 : terminator <:+: (req ++ c) ++ cs.flatten := by
        rw [List.append_assoc, ← List.flatten_cons]
        exact hyes
      obtain ⟨k, hk, hfirst, hin, hrun⟩ :=
        ih (req ++ c) (fun x hx => hlen x (List.mem_cons_of_mem c hx)) h1 hyes2
      refine ⟨k + 1, by simpa using hk, ?_, ?_, ?_⟩
      · intro j hj
        cases j with
        | zero => simpa using hreq
        | succ j =>
          have := hfirst j (by omega)
          rw [List.take_succ_cons, List.flatten_cons, ← List.append_assoc]
          exact this
      · rw [List.take_succ_cons, List.flatten_cons, ← List.append_assoc]
        exact hin
      · rw [List.map_cons, List.cons_append, recvLoop_cons_continue fd c _ req hc h1, hrun]
        simp [List.take_succ_cons, List.flatten_cons, List.append_assoc]

/-- C4: when the reads (each of 1 to 2048 bytes) are followed by a zero or
negative result and the bytes read never contain `\r\n\r\n`, `handle_client`
computes no response: after the reads it goes through the delay step (it sleeps
for the delay when the delay is nonzero), then calls `send` with the empty
string, then `close`; these are all the calls it makes. -/
theorem no_terminator_empty_response (client_socket delayTest delaySleep : Int)
    (chunks : List (List Char)) (r : RecvResult) (rest : List RecvResult)
    (hlen : ∀ c ∈ chunks, 1 ≤ c.length ∧ c.length ≤ BUFFER_SIZE)
    (hno : ¬ terminator <:+: chunks.flatten) (hr : r.ret ≤ 0) :
    handle_client client_socket delayTest delaySleep (chunks.map recvChunk ++ r :: rest) =
      some (chunks.map (fun c => ClientCall.recv client_socket 2048 (c.length : Int)) ++
        [ClientCall.recv client_socket 2048 r.ret] ++
        (if delayTest = 0 then [] else [ClientCall.sleep_ms delaySleep]) ++
        [ClientCall.send client_socket [], ClientCall.close client_socket]) := by
  rw [handle_client, recvLoop_no_terminator client_socket chunks [] r rest
    (fun c hc => (hlen c hc).1) (by simpa using hno) hr]
  by_cases hd : delayTest = 0
  · simp [delayStep, hd, BUFFER_SIZE]
  · simp [delayStep, hd, BUFFER_SIZE]

/-- Witness of `no_terminator_empty_response`: the peer sends `GET /a HT` and
closes while the delay is 7 ms; the handler reads twice, sleeps 7 ms, sends the
empty string and closes. -/
theorem no_terminator_empty_response_witness :
    handle_client 4 7 7 [recvChunk (lit "GET /a HT"), { ret := 0, buffer := [] }] =
      some [ClientCall.recv 4 2048 9, ClientCall.recv 4 2048 0, ClientCall.sleep_ms 7,
        ClientCall.send 4 [], ClientCall.close 4] :=
  no_terminator_empty_response 4 7 7 [lit "GET /a HT"] { ret := 0, buffer := [] } []
    (by decide) (by decide) (by decide)

/-- C10: however a byte string that contains `\r\n\r\n` is delivered in non-empty
chunks of at most 2048 bytes, `handle_client` stops reading after the first chunk
with which the accumulated bytes contain `\r\n\r\n`, and the response it sends
is `generateHTTPResponse (extractURLFromRequest S)` for the whole string `S`. -/
theorem response_independent_of_chunking (client_socket delayTest delaySleep : Int)
    (chunks : List (List Char)) (rest : List RecvResult)
    (hlen : ∀ c ∈ chunks, 1 ≤ c.length ∧ c.length ≤ BUFFER_SIZE)
    (hyes : terminator <:+: chunks.flatten) :
    ∃ k, k < chunks.length ∧
      (∀ j, j ≤ k → ¬ terminator <:+: (chunks.take j).flatten) ∧
      terminator <:+: (chunks.take (k + 1)).flatten ∧
      handle_client client_socket delayTest delaySleep (chunks.map recvChunk ++ rest) =
        some ((chunks.take (k + 1)).map
            (fun c => ClientCall.recv client_socket BUFFER_SIZE (c.length : Int)) ++
          delayStep delayTest delaySleep ++
          [ClientCall.send client_socket
              (generateHTTPResponse (extractURLFromRequest chunks.flatten)),
            ClientCall.close client_socket]) := by
  have hnil : ¬ terminator <:+: ([] : List Char) := by decide
  obtain ⟨k, hk, hfirst, hin, hrun⟩ :=
    recvLoop_terminator client_socket chunks [] rest (fun c hc => (hlen c hc).1) hnil
      (by simpa using hyes)
  simp only [List.nil_append] at hfirst hin hrun
  refine ⟨k, hk, hfirst, hin, ?_⟩
  have hsame : extractURLFromRequest chunks.flatten =
      extractURLFromRequest (chunks.take (k + 1)).flatten := by
    apply extractURLFromRequest_congr
    have hsplit : chunks.flatten =
        (chunks.take (k + 1)).flatten ++ (chunks.drop (k + 1)).flatten := by
      rw [← List.flatten_append, List.take_append_drop]
    rw [hsplit]
    exact getline_append_of_mem _ _ (terminator_has_newline _ hin)
  rw [handle_client, hrun, hsame]
  rfl

/-- Witness of `response_independent_of_chunking`: the terminator is split over
two chunks, and bytes follow it in the last chunk. -/
theorem response_independent_of_chunking_witness :
    ∃ k, k < [lit "GET /a HT", lit "TP/1.1\r\n\r", lit "\nxx"].length ∧
      (∀ j, j ≤ k →
        ¬ terminator <:+: ([lit "GET /a HT", lit "TP/1.1\r\n\r", lit "\nxx"].take j).flatten) ∧
      terminator <:+: ([lit "GET /a HT", lit "TP/1.1\r\n\r", lit "\nxx"].take (k + 1)).flatten ∧
      handle_client 4 0 0
          ([lit "GET /a HT", lit "TP/1.1\r\n\r", lit "\nxx"].map recvChunk ++ []) =
        some (([lit "GET /a HT", lit "TP/1.1\r\n\r", lit "\nxx"].take (k + 1)).map
            (fun c => ClientCall.recv 4 BUFFER_SIZE (c.length : Int)) ++
          delayStep 0 0 ++
          [ClientCall.send 4
              (generateHTTPResponse (extractURLFromRequest
                [lit "GET /a HT", lit "TP/1.1\r\n\r", lit "\nxx"].flatten)),
            ClientCall.close 4]) :=
  response_independent_of_chunking 4 0 0 [lit "GET /a HT", lit "TP/1.1\r\n\r", lit "\nxx"] []
    (by decide) (by decide)


/-! ## The acceptor -/

theorem acceptLoop_trace_not_setup (E : ErrnoValues) (inputs : List LoopInput) (s : Server)
    (threads : List ClientThread) :
    ∀ e ∈ (acceptLoop E inputs s threads).trace, e.isSetupStep = false := by
  induction inputs generalizing s threads with
  | nil => simp [acceptLoop]
  | cons i rest ih =>
    cases hrun : s.is_running_ with
    | false => simp [acceptLoop, hrun]
    | true =>
      cases i with
      | stop_server =>
        simp only [acceptLoop, hrun, if_true]
        exact ih _ _
      | accept ret errno hr =>
        simp only [acceptLoop, hrun, if_true]
        split
        · split
          · intro e he
            simp only [List.mem_cons] at he
            rcases he with he | he | he
            · subst he; rfl
            · subst he; rfl
            · exact ih _ _ e he
          · intro e he
            simp only [List.mem_singleton] at he
            subst he; rfl
        · intro e he
          simp only [List.mem_cons] at he
          rcases he with he | he | he
          · subst he; rfl
          · subst he; rfl
          · exact ih _ _ e he

theorem joinAll_trace_not_setup (threads : List ClientThread) :
    ∀ e ∈ (joinAll threads).1, e.isSetupStep = false := by
  induction threads with
  | nil => simp [joinAll]
  | cons t ts ih =>
    cases ht : t.returns with
    | false => simp [joinAll, ht]
    | true =>
      intro e he
      simp only [joinAll, ht, if_true, List.mem_cons] at he
      rcases he with he | he
      · subst he; rfl
      · exact ih e he

theorem prefix_of_append_cons_eq {α : Type} (l1 t pre post : List α) (x : α)
    (h : l1 ++ x :: t = pre ++ x :: post) (hx : x ∉ l1) : l1 <+: pre := by
  induction l1 generalizing pre with
  | nil => exact List.nil_prefix
  | cons a l ih =>
    cases pre with
    | nil =>
      simp only [List.cons_append, List.nil_append, List.cons.injEq] at h
      exact absurd (List.mem_cons_self a l) (h.1 ▸ hx)
    | cons b pre =>
      simp only [List.cons_append, List.cons.injEq] at h
      obtain ⟨hab, hrest⟩ := h
      subst hab
      exact List.cons_prefix_cons.2 ⟨rfl, ih pre hrest (fun hm => hx (List.mem_cons_of_mem a hm))⟩

/-- The run of `start` when the five calls the setup checks have all succeeded:
the setup steps, the store to the running flag, then steps of the accept loop,
joins and the final `close`; and `ec_` is 1 once `start` has returned. -/
theorem start_of_setup_ok (E : ErrnoValues) (env : SetupResults) (inputs : List LoopInput)
    (s : Server) (h1 : env.socket ≠ -1) (h2 : env.setsockopt ≠ -1) (h3 : env.bind ≠ -1)
    (h4 : env.fcntl_setfl ≠ -1) (h5 : env.listen ≠ -1) :
    ∃ tail, (start E env inputs s).trace =
        [SysCall.socket env.socket, SysCall.setsockopt env.setsockopt, SysCall.bind env.bind,
          SysCall.fcntl_getfl env.fcntl_getfl, SysCall.fcntl_setfl env.fcntl_setfl,
          SysCall.listen 500 env.listen] ++ SysCall.set_running :: tail ∧
      (∀ e ∈ tail, e.isSetupStep = false) ∧
      ((start E env inputs s).returned = true → (start E env inputs s).state.ec_ = 1) := by
  have hloop := acceptLoop_trace_not_setup E inputs { s with is_running_ := true } []
  have hjoin := joinAll_trace_not_setup
    (acceptLoop E inputs { s with is_running_ := true } []).threads
  simp only [start, beq_iff_eq, h1, h2, h3, h4, h5, if_false]
  generalize acceptLoop E inputs { s with is_running_ := true } [] = loop at hloop hjoin ⊢
  split
  · split
    · refine ⟨loop.trace ++ (joinAll loop.threads).1 ++ [SysCall.close env.socket], by simp,
        ?_, fun _ => rfl⟩
      intro e he
      simp only [List.mem_append, List.mem_singleton] at he
      rcases he with (he | he) | he
      · exact hloop e he
      · exact hjoin e he
      · subst he; rfl
    · refine ⟨loop.trace ++ (joinAll loop.threads).1, by simp, ?_, fun h => by simp at h⟩
      intro e he
      simp only [List.mem_append] at he
      rcases he with he | he
      · exact hloop e he
      · exact hjoin e he
  · exact ⟨loop.trace, by simp, hloop, fun h => by simp at h⟩

/-- The runs of `start` that end in the setup part, one per failing call. -/
theorem start_of_setup_failure (E : ErrnoValues) (env : SetupResults) (inputs : List LoopInput)
    (s : Server) :
    (env.socket = -1 → start E env inputs s =
      { state := { s with ec_ := 1 }, trace := [SysCall.socket (-1)], returned := true }) ∧
    (env.socket ≠ -1 → env.setsockopt = -1 → start E env inputs s =
      { state := { s with ec_ := 1 },
        trace := [SysCall.socket env.socket, SysCall.setsockopt (-1)], returned := true }) ∧
    (env.socket ≠ -1 → env.setsockopt ≠ -1 → env.bind = -1 → start E env inputs s =
      { state := { s with ec_ := 1 },
        trace := [SysCall.socket env.socket, SysCall.setsockopt env.setsockopt,
          SysCall.bind (-1)], returned := true }) ∧
    (env.socket ≠ -1 → env.setsockopt ≠ -1 → env.bind ≠ -1 → env.fcntl_setfl = -1 →
      start E env inputs s =
      { state := s,
        trace := [SysCall.socket env.socket, SysCall.setsockopt env.setsockopt,
          SysCall.bind env.bind, SysCall.fcntl_getfl env.fcntl_getfl,
          SysCall.fcntl_setfl (-1)], returned := true }) ∧
    (env.socket ≠ -1 → env.setsockopt ≠ -1 → env.bind ≠ -1 → env.fcntl_setfl ≠ -1 →
      env.listen = -1 → start E env inputs s =
      { state := { s with ec_ := 1 },
        trace := [SysCall.socket env.socket, SysCall.setsockopt env.setsockopt,
          SysCall.bind env.bind, SysCall.fcntl_getfl env.fcntl_getfl,
          SysCall.fcntl_setfl env.fcntl_setfl, SysCall.listen 500 (-1)], returned := true }) := by
  refine ⟨?_, ?_, ?_, ?_, ?_⟩
  · intro h1
    simp [start, h1]
  · intro h1 h2
    simp [start, h1, h2]
  · intro h1 h2 h3
    simp [start, h1, h2, h3]
  · intro h1 h2 h3 h4
    simp [start, h1, h2, h3, h4]
  · intro h1 h2 h3 h4 h5
    simp [start, h1, h2, h3, h4, h5]

/-- C6: on a freshly constructed server, when `socket`, `setsockopt`, `bind` or
`listen` fails, `start` returns without calling `accept`, `is_running()` is false
and `get_error_code()` is nonzero; and the store `is_running_ = true` comes only
after `socket`, `setsockopt`, `bind` and `listen` have succeeded. -/
theorem setup_failure_not_running (E : ErrnoValues) (env : SetupResults)
    (inputs : List LoopInput) :
    ((SysCall.socket (-1) ∈ (start E env inputs Server.new).trace ∨
        SysCall.setsockopt (-1) ∈ (start E env inputs Server.new).trace ∨
        SysCall.bind (-1) ∈ (start E env inputs Server.new).trace ∨
        SysCall.listen 500 (-1) ∈ (start E env inputs Server.new).trace) →
      (start E env inputs Server.new).returned = true ∧
      (∀ ret errno, SysCall.accept ret errno ∉ (start E env inputs Server.new).trace) ∧
      (start E env inputs Server.new).state.is_running = false ∧
      (start E env inputs Server.new).state.get_error_code ≠ 0) ∧
    (∀ pre post, (start E env inputs Server.new).trace = pre ++ SysCall.set_running :: post →
      (∃ fd, fd ≠ -1 ∧ SysCall.socket fd ∈ pre) ∧
      (∃ x, x ≠ -1 ∧ SysCall.setsockopt x ∈ pre) ∧
      (∃ x, x ≠ -1 ∧ SysCall.bind x ∈ pre) ∧
      (∃ x, x ≠ -1 ∧ SysCall.listen 500 x ∈ pre)) ∧
    ((start E env inputs Server.new).state.is_running = true →
      SysCall.set_running ∈ (start E env inputs Server.new).trace) := by
  obtain ⟨f1, f2, f3, f4, f5⟩ := start_of_setup_failure E env inputs Server.new
  have hnot : ∀ (l pre post : List SysCall), SysCall.set_running ∉ l →
      l ≠ pre ++ SysCall.set_running :: post := by
    intro l pre post hl he
    apply hl
    rw [he]
    simp
  by_cases h1 : env.socket = -1
  · rw [f1 h1]
    refine ⟨fun _ => by simp [Server.new, Server.is_running, Server.get_error_code], ?_, ?_⟩
    · intro pre post he
      exact absurd he (hnot _ pre post (by simp))
    · simp [Server.new, Server.is_running]
  by_cases h2 : env.setsockopt = -1
  · rw [f2 h1 h2]
    refine ⟨fun _ => by simp [Server.new, Server.is_running, Server.get_error_code], ?_, ?_⟩
    · intro pre post he
      exact absurd he (hnot _ pre post (by simp))
    · simp [Server.new, Server.is_running]
  by_cases h3 : env.bind = -1
  · rw [f3 h1 h2 h3]
    refine ⟨fun _ => by simp [Server.new, Server.is_running, Server.get_error_code], ?_, ?_⟩
    · intro pre post he
      exact absurd he (hnot _ pre post (by simp))
    · simp [Server.new, Server.is_running]
  by_cases h4 : env.fcntl_setfl = -1
  · rw [f4 h1 h2 h3 h4]
    refine ⟨?_, ?_, ?_⟩
    · intro hfail
      exfalso
      simp only [List.mem_cons, SysCall.socket.injEq, SysCall.setsockopt.injEq,
        SysCall.bind.injEq, List.mem_nil_iff, or_false, reduceCtorEq, false_or] at hfail
      rcases hfail with h | h | h
      · exact h1 h.symm
      · exact h2 h.symm
      · exact h3 h.symm
    · intro pre post he
      exact absurd he (hnot _ pre post (by simp))
    · simp [Server.new, Server.is_running]
  by_cases h5 : env.listen = -1
  · rw [f5 h1 h2 h3 h4 h5]
    refine ⟨fun _ => by simp [Server.new, Server.is_running, Server.get_error_code], ?_, ?_⟩
    · intro pre post he
      exact absurd he (hnot _ pre post (by simp))
    · simp [Server.new, Server.is_running]
  obtain ⟨tail, htr, htail, _⟩ := start_of_setup_ok E env inputs Server.new h1 h2 h3 h4 h5
  rw [htr]
  refine ⟨?_, ?_, ?_⟩
  · intro hfail
    exfalso
    have ht : ∀ e ∈ tail, e.isSetupStep = true → False := by
      intro e he hs
      rw [htail e he] at hs
      exact Bool.noConfusion hs
    simp only [List.mem_append, List.mem_cons, SysCall.socket.injEq, SysCall.setsockopt.injEq,
      SysCall.bind.injEq, SysCall.listen.injEq, List.mem_nil_iff, or_false, reduceCtorEq,
      false_or, true_and] at hfail
    rcases hfail with (h | h) | (h | h) | (h | h) | (h | h)
    · exact h1 h.symm
    · exact ht _ h rfl
    · exact h2 h.symm
    · exact ht _ h rfl
    · exact h3 h.symm
    · exact ht _ h rfl
    · exact h5 h.symm
    · exact ht _ h rfl
  · intro pre post he
    have hpre := prefix_of_append_cons_eq _ tail pre post SysCall.set_running he (by simp)
    have hsub := hpre.subset
    exact ⟨⟨env.socket, h1, hsub (by simp)⟩, ⟨env.setsockopt, h2, hsub (by simp)⟩,
      ⟨env.bind, h3, hsub (by simp)⟩, ⟨env.listen, h5, hsub (by simp)⟩⟩
  · intro _
    simp

/-- Witness of `setup_failure_not_running`: `bind` fails (the port is in use) while
a connection is pending. -/
theorem setup_failure_not_running_witness :
    (start linuxErrno { setupOk with bind := -1 } [LoopInput.accept 4 0 true]
        Server.new).returned = true ∧
      (∀ ret errno, SysCall.accept ret errno ∉
        (start linuxErrno { setupOk with bind := -1 } [LoopInput.accept 4 0 true]
          Server.new).trace) ∧
      (start linuxErrno { setupOk with bind := -1 } [LoopInput.accept 4 0 true]
        Server.new).state.is_running = false ∧
      (start linuxErrno { setupOk with bind := -1 } [LoopInput.accept 4 0 true]
        Server.new).state.get_error_code ≠ 0 :=
  (setup_failure_not_running linuxErrno { setupOk with bind := -1 }
    [LoopInput.accept 4 0 true]).1 (by decide)

/-- C7, as stated, fails: with `socket`, `setsockopt` and `bind` succeeding, the
non-blocking `fcntl` call failing and `listen` ready to succeed, `start` returns
right after the `fcntl` call: `listen` is not called, the running flag is not
set and the pending connection is not accepted. -/
theorem nonblocking_failure_aborts_example :
    ({ setupOk with fcntl_setfl := -1 } : SetupResults).listen ≠ -1 ∧
    start linuxErrno { setupOk with fcntl_setfl := -1 }
        [LoopInput.accept 4 0 true, LoopInput.stop_server] Server.new =
      { state := { is_running_ := false, ec_ := 0, delay_time_ := 0 },
        trace := [SysCall.socket 3, SysCall.setsockopt 0, SysCall.bind 0,
          SysCall.fcntl_getfl 2, SysCall.fcntl_setfl (-1)],
        returned := true } ∧
    SysCall.listen 500 0 ∉ (start linuxErrno { setupOk with fcntl_setfl := -1 }
        [LoopInput.accept 4 0 true, LoopInput.stop_server] Server.new).trace ∧
    SysCall.set_running ∉ (start linuxErrno { setupOk with fcntl_setfl := -1 }
        [LoopInput.accept 4 0 true, LoopInput.stop_server] Server.new).trace ∧
    (start linuxErrno { setupOk with fcntl_setfl := -1 }
        [LoopInput.accept 4 0 true, LoopInput.stop_server] Server.new).state.is_running = false := by
  decide

/-- C7, amended: when `socket`, `setsockopt` and `bind` succeed and the
non-blocking `fcntl` call fails, `start` returns at once, whatever `listen` would
have returned and whatever the state of the server: it does not call `listen`,
does not set the running flag, which keeps the value it had, and does not call
`accept`. -/
theorem nonblocking_failure_aborts (E : ErrnoValues) (env : SetupResults)
    (inputs : List LoopInput) (s : Server) (h1 : env.socket ≠ -1)
    (h2 : env.setsockopt ≠ -1) (h3 : env.bind ≠ -1) (h4 : env.fcntl_setfl = -1) :
    (start E env inputs s).returned = true ∧
    (start E env inputs s).trace =
      [SysCall.socket env.socket, SysCall.setsockopt env.setsockopt, SysCall.bind env.bind,
        SysCall.fcntl_getfl env.fcntl_getfl, SysCall.fcntl_setfl (-1)] ∧
    (∀ backlog ret, SysCall.listen backlog ret ∉ (start E env inputs s).trace) ∧
    SysCall.set_running ∉ (start E env inputs s).trace ∧
    (∀ ret errno, SysCall.accept ret errno ∉ (start E env inputs s).trace) ∧
    (start E env inputs s).state.is_running = s.is_running := by
  rw [(start_of_setup_failure E env inputs s).2.2.2.1 h1 h2 h3 h4]
  simp

/-- Witness of `nonblocking_failure_aborts`, with `listen` ready to succeed and a
connection pending, on a fresh server. -/
theorem nonblocking_failure_aborts_witness :
    (start linuxErrno { setupOk with fcntl_setfl := -1 } [LoopInput.accept 4 0 true]
      Server.new).returned = true ∧
    SysCall.set_running ∉ (start linuxErrno { setupOk with fcntl_setfl := -1 }
      [LoopInput.accept 4 0 true] Server.new).trace ∧
    (start linuxErrno { setupOk with fcntl_setfl := -1 } [LoopInput.accept 4 0 true]
      Server.new).state.is_running = Server.new.is_running :=
  have h := nonblocking_failure_aborts linuxErrno { setupOk with fcntl_setfl := -1 }
    [LoopInput.accept 4 0 true] Server.new (by decide) (by decide) (by decide) (by decide)
  ⟨h.1, h.2.2.2.1, h.2.2.2.2.2⟩

/-- C8, the code at the failing input: the setup succeeds and the first `accept`
fails with `errno` 24 (`EMFILE`), which is neither `EWOULDBLOCK` nor `EAGAIN`. The
loop ends, `start` closes the listening socket and returns with the error code
set to 1, and `is_running()` is still true. -/
theorem accept_failure_leaves_running :
    (24 : Int) ≠ linuxErrno.EWOULDBLOCK ∧ (24 : Int) ≠ linuxErrno.EAGAIN ∧
    start linuxErrno setupOk [LoopInput.accept (-1) 24 false] Server.new =
      { state := { is_running_ := true, ec_ := 1, delay_time_ := 0 },
        trace := [SysCall.socket 3, SysCall.setsockopt 0, SysCall.bind 0,
          SysCall.fcntl_getfl 2, SysCall.fcntl_setfl 0, SysCall.listen 500 0,
          SysCall.set_running, SysCall.accept (-1) 24, SysCall.close 3],
        returned := true } ∧
    (start linuxErrno setupOk [LoopInput.accept (-1) 24 false] Server.new).state.is_running
      = true ∧
    (start linuxErrno setupOk [LoopInput.accept (-1) 24 false] Server.new).state.get_error_code
      ≠ 0 := by
  decide

/-- C9, as stated, fails: the setup succeeds, no call fails, and the loop ends
only because `stop_server()` cleared the running flag; `start` returns with the
error code 1, not 0. -/
theorem graceful_stop_sets_error_code :
    start linuxErrno setupOk [LoopInput.stop_server] Server.new =
      { state := { is_running_ := false, ec_ := 1, delay_time_ := 0 },
        trace := [SysCall.socket 3, SysCall.setsockopt 0, SysCall.bind 0,
          SysCall.fcntl_getfl 2, SysCall.fcntl_setfl 0, SysCall.listen 500 0,
          SysCall.set_running, SysCall.close 3],
        returned := true } ∧
    (start linuxErrno setupOk [LoopInput.stop_server] Server.new).state.get_error_code ≠ 0 := by
  decide

/-- C9, amended: after `start` has returned on a fresh server, the error code is
nonzero exactly when `socket`, `setsockopt`, `bind` or `listen` failed or the
accept loop was entered, whatever ended the loop; a run that entered the loop,
also one ended only by `stop_server()`, returns with the error code 1. -/
theorem error_code_after_start (E : ErrnoValues) (env : SetupResults)
    (inputs : List LoopInput)
    (hret : (start E env inputs Server.new).returned = true) :
    ((start E env inputs Server.new).state.get_error_code ≠ 0 ↔
      (SysCall.socket (-1) ∈ (start E env inputs Server.new).trace ∨
        SysCall.setsockopt (-1) ∈ (start E env inputs Server.new).trace ∨
        SysCall.bind (-1) ∈ (start E env inputs Server.new).trace ∨
        SysCall.listen 500 (-1) ∈ (start E env inputs Server.new).trace ∨
        SysCall.set_running ∈ (start E env inputs Server.new).trace)) ∧
    (SysCall.set_running ∈ (start E env inputs Server.new).trace →
      (start E env inputs Server.new).state.get_error_code = 1) := by
  obtain ⟨f1, f2, f3, f4, f5⟩ := start_of_setup_failure E env inputs Server.new
  by_cases h1 : env.socket = -1
  · rw [f1 h1]
    simp [Server.get_error_code]
  by_cases h2 : env.setsockopt = -1
  · rw [f2 h1 h2]
    simp [Server.get_error_code]
  by_cases h3 : env.bind = -1
  · rw [f3 h1 h2 h3]
    simp [Server.get_error_code]
  by_cases h4 : env.fcntl_setfl = -1
  · rw [f4 h1 h2 h3 h4]
    have e1 : ¬ (-1 = env.socket) := fun h => h1 h.symm
    have e2 : ¬ (-1 = env.setsockopt) := fun h => h2 h.symm
    have e3 : ¬ (-1 = env.bind) := fun h => h3 h.symm
    simp [Server.get_error_code, Server.new, e1, e2, e3]
  by_cases h5 : env.listen = -1
  · rw [f5 h1 h2 h3 h4 h5]
    simp [Server.get_error_code]
  obtain ⟨tail, htr, _, hec⟩ := start_of_setup_ok E env inputs Server.new h1 h2 h3 h4 h5
  have hec1 := hec hret
  rw [htr]
  simp [Server.get_error_code, hec1]

/-- Witness of `error_code_after_start`: a connection is served, then
`stop_server()` ends the loop. -/
theorem error_code_after_start_witness :
    (start linuxErrno setupOk [LoopInput.accept 4 0 true, LoopInput.stop_server]
      Server.new).state.get_error_code = 1 :=
  (error_code_after_start linuxErrno setupOk [LoopInput.accept 4 0 true, LoopInput.stop_server]
    (by decide)).2 (by decide)

end SimpleHttpServer
